import Mathlib

/-!
Verification development for the order-placement subsystem of an
e-commerce backend (Express + PostgreSQL + Redis).

The embedding below follows the source:
* `createOrder` and `invalidateProductCache` from the order controller
  (`dist/controllers/orderController.js`, mirrored by the TypeScript
  controller): BEGIN, zod validation, authentication check, a stock-check
  loop, order/line-item inserts with stock decrements, COMMIT, cache
  invalidation, and a post-commit read-back of the complete order.
* The `products` table schema from `database/init.sql`, in particular the
  column constraint `CHECK (stock_quantity >= 0)`.
* The products listing route (`routes/products.ts`) with its
  `products:page:limit:category:search` cache keys.
* `CacheService` from `dist/services/cache.js`.

Money values (`price`, `unit_price`, `total_amount`) are modelled as
integers (amounts in the currency's minor unit; the claims about totals
only use ring arithmetic, so this is faithful to the NUMERIC columns);
stock counters as integers (the schema constraint is what keeps them
non-negative).  Database effects are modelled by explicit state
passing over a `Db` record, and the transaction commands the controller
issues (`BEGIN`, `ROLLBACK`, `COMMIT`) plus the cache-invalidation call are
recorded in an event trace so that claims about their ordering can be
stated.
-/

namespace ECommerce

/-- A row of the `products` table (`database/init.sql`): `price` is a
NUMERIC column modelled as an integer amount, `stock_quantity` is an
INTEGER column subject to the schema constraint
`CHECK (stock_quantity >= 0)`. -/
structure Product where
  id : Nat
  name : String
  description : String
  price : Int
  stock : Int
  categoryId : Option Nat
deriving Repr, DecidableEq

/-- A row of the `orders` table. -/
structure OrderRow where
  id : Nat
  userId : Nat
  totalAmount : Int
  status : String
  shippingAddress : String
deriving Repr, DecidableEq

/-- A row of the `order_items` table. -/
structure OrderItemRow where
  id : Nat
  orderId : Nat
  productId : Nat
  unitPrice : Int
  quantity : Nat
deriving Repr, DecidableEq

/-- The relational store: `products`, `orders`, `order_items`, plus the
sequence counters that assign fresh primary keys (SERIAL columns). -/
structure Db where
  products : List Product
  orders : List OrderRow
  orderItems : List OrderItemRow
  nextOrderId : Nat
  nextOrderItemId : Nat
deriving Repr, DecidableEq

/-- A raw cart line as it arrives in the request body, before zod
validation (`createOrderSchema`): numbers may be non-positive. -/
structure RawItem where
  productId : Int
  quantity : Int
deriving Repr, DecidableEq

/-- A raw `createOrder` request: body (`items`, `shippingAddress`) plus
the authenticated user attached by the auth middleware (`req.user?.id`). -/
structure RawRequest where
  items : List RawItem
  shippingAddress : String
  userId : Option Nat
deriving Repr, DecidableEq

/-- A cart line after validation: positive product id and quantity. -/
structure CartItem where
  productId : Nat
  quantity : Nat
deriving Repr, DecidableEq

/-- zod item schema: `productId` positive, `quantity` positive integer. -/
def validItem (it : RawItem) : Bool :=
  decide (0 < it.productId) && decide (0 < it.quantity)

/-- `createOrderSchema.safeParse`: at least one item, every item valid,
shipping address at least 10 characters. -/
def validRequest (r : RawRequest) : Bool :=
  !r.items.isEmpty && r.items.all validItem &&
    decide (10 ≤ r.shippingAddress.length)

/-- The parsed cart lines of a request (meaningful when `validRequest`). -/
def parseItems (r : RawRequest) : List CartItem :=
  r.items.map (fun it => ⟨it.productId.toNat, it.quantity.toNat⟩)

/-- `SELECT id, name, price, stock_quantity FROM products WHERE id = $1`. -/
def findProduct (db : Db) (pid : Nat) : Option Product :=
  db.products.find? (fun p => p.id == pid)

/-- `UPDATE products SET stock_quantity = stock_quantity - $1 WHERE id = $2`.
The update itself is unconditional, but the schema constraint
`CHECK (stock_quantity >= 0)` rejects the statement (a constraint
violation, surfaced as a thrown error) whenever the decremented value
would be negative; `none` models that rejection.  An id with no matching
row simply updates zero rows. -/
def decrementStock (db : Db) (pid : Nat) (q : Nat) : Option Db :=
  if db.products.any (fun p => p.id == pid && decide (p.stock < (q : Int))) then
    none
  else
    some { db with
      products := db.products.map (fun p =>
        if p.id == pid then { p with stock := p.stock - (q : Int) } else p) }

/-- One entry of the controller's in-memory `orderItems` array: the cart
line together with the unit price captured from the stock check. -/
structure ReservedLine where
  productId : Nat
  quantity : Nat
  unitPrice : Int
deriving Repr, DecidableEq

/-- The 400 message template of the insufficient-stock branch:
it interpolates the product NAME, the available stock and the requested
quantity. -/
def insufficientStockMessage (name : String) (available : Int) (requested : Nat) : String :=
  "Insufficient stock for " ++ name ++ ". Available: " ++ toString available
    ++ ", Requested: " ++ toString requested

/-- The 404 message template of the product-not-found branch. -/
def productNotFoundMessage (pid : Nat) : String :=
  "Product with ID " ++ toString pid ++ " not found"

/-- One line item of the assembled order returned to the caller
(`subtotal` is computed as `unit_price * quantity` in the read-back). -/
structure CompleteOrderItem where
  id : Nat
  productId : Nat
  productName : String
  unitPrice : Int
  quantity : Nat
  subtotal : Int
deriving Repr, DecidableEq

/-- The assembled order (header plus line items) returned on success. -/
structure CompleteOrder where
  id : Nat
  totalAmount : Int
  status : String
  shippingAddress : String
  items : List CompleteOrderItem
deriving Repr, DecidableEq

/-- The caller-visible outcome of `createOrder`: 400 invalid input,
401 authentication required, 404 product not found, 400 insufficient
stock, 201 created, or 500 internal failure. -/
inductive OrderResponse where
  | validationError
  | authRequired
  | productNotFound (message : String)
  | insufficientStock (message : String)
  | created (order : CompleteOrder)
  | serverError
deriving Repr, DecidableEq

/-- HTTP status code of each `createOrder` outcome. -/
def OrderResponse.status : OrderResponse → Nat
  | .validationError => 400
  | .authRequired => 401
  | .productNotFound _ => 404
  | .insufficientStock _ => 400
  | .created _ => 201
  | .serverError => 500

/-- The stock-check loop of `createOrder`: for each cart line, fetch the
product; 404 if absent, 400 if `stock_quantity < quantity`; otherwise
capture the unit price and accumulate the total. -/
def reserveItems (db : Db) : List CartItem → Except OrderResponse (List ReservedLine × Int)
  | [] => .ok ([], 0)
  | it :: rest =>
    match findProduct db it.productId with
    | none => .error (.productNotFound (productNotFoundMessage it.productId))
    | some p =>
      if p.stock < (it.quantity : Int) then
        .error (.insufficientStock (insufficientStockMessage p.name p.stock it.quantity))
      else
        match reserveItems db rest with
        | .error e => .error e
        | .ok (lines, total) =>
          .ok (⟨it.productId, it.quantity, p.price⟩ :: lines,
               p.price * (it.quantity : Int) + total)

/-- `INSERT INTO orders (user_id, total_amount, status, shipping_address)
VALUES ($1, $2, 'pending', $4) RETURNING id, ...`. -/
def insertOrder (db : Db) (userId : Nat) (total : Int) (addr : String) : OrderRow × Db :=
  let row : OrderRow := ⟨db.nextOrderId, userId, total, "pending", addr⟩
  (row, { db with orders := db.orders ++ [row], nextOrderId := db.nextOrderId + 1 })

/-- `INSERT INTO order_items (order_id, product_id, unit_price, quantity)`. -/
def insertOrderItem (db : Db) (orderId : Nat) (line : ReservedLine) : Db :=
  { db with
    orderItems := db.orderItems ++
      [⟨db.nextOrderItemId, orderId, line.productId, line.unitPrice, line.quantity⟩],
    nextOrderItemId := db.nextOrderItemId + 1 }

/-- The write loop of `createOrder`: per reserved line, insert the
order-items row, then decrement the product's stock (`none` when the
schema constraint rejects the decrement). -/
def writeLines (db : Db) (orderId : Nat) : List ReservedLine → Option Db
  | [] => some db
  | line :: rest =>
    match decrementStock (insertOrderItem db orderId line) line.productId line.quantity with
    | none => none
    | some db1 => writeLines db1 orderId rest

/-- The read-back of the order's line items after commit: `order_items`
rows of the order joined with `products` for the name, with
`subtotal = unit_price * quantity` computed per row (an inner join: a row
whose product is missing would be dropped). -/
def readBackItems (db : Db) (orderId : Nat) : List CompleteOrderItem :=
  (db.orderItems.filter (fun oi => oi.orderId == orderId)).filterMap (fun oi =>
    match findProduct db oi.productId with
    | none => none
    | some p =>
      some ⟨oi.id, oi.productId, p.name, oi.unitPrice, oi.quantity,
            oi.unitPrice * (oi.quantity : Int)⟩)

/-- The post-commit read-back of the complete order by its new id. -/
def readBackOrder (db : Db) (orderId : Nat) : Option CompleteOrder :=
  match db.orders.find? (fun o => o.id == orderId) with
  | none => none
  | some o => some ⟨o.id, o.totalAmount, o.status, o.shippingAddress, readBackItems db orderId⟩

/-- A cached product-listing page, as written by the listing route. -/
structure ListingPage where
  items : List Product
  page : Nat
  limit : Nat
  total : Nat
deriving Repr, DecidableEq

/-- The Redis cache contents, as an association list from keys to cached
listing pages. -/
abbrev Cache := List (String × ListingPage)

/-- `redis.get key` against the modelled cache contents. -/
def cacheLookup (c : Cache) (k : String) : Option ListingPage :=
  (c.find? (fun kv => kv.1 == k)).map (fun kv => kv.2)

/-- `redis.setex key ttl value` (the TTL is not modelled). -/
def cacheStore (c : Cache) (k : String) (v : ListingPage) : Cache :=
  (k, v) :: c.filter (fun kv => kv.1 != k)

/-- Character-level prefix test used to model Redis glob matching. -/
def strStartsWith (pre s : String) : Bool :=
  pre.toList.isPrefixOf s.toList

/-- Whether a key matches the Redis glob `products:*` used by
`invalidateProductCache`, i.e. starts with the `products:` namespace. -/
def matchesProductsPattern (k : String) : Bool :=
  strStartsWith "products:" k

/-- `cacheService.delByPattern ('products:*')`: `KEYS products:*` followed
by `DEL` of every match. -/
def delByPatternProducts (c : Cache) : Cache :=
  c.filter (fun kv => !(matchesProductsPattern kv.1))

/-- The transaction-level database commands and the cache-invalidation
call issued by `createOrder`, in order of execution. -/
inductive DbEvent where
  | begin
  | rollback
  | commit
  | cacheInvalidate
deriving Repr, DecidableEq

/-- Everything `createOrder` leaves behind: the HTTP response, the
committed database state, the cache contents, and the trace of
transaction commands and invalidation calls. -/
structure OrderOutcome where
  response : OrderResponse
  db : Db
  cache : Cache
  trace : List DbEvent
deriving Repr, DecidableEq

/-- The `createOrder` controller.  Mirrors the source control flow:
`BEGIN` is issued first; then zod validation (an early `return` with NO
rollback on failure), then the authentication check (likewise no
rollback), then the stock-check loop (404/400 branches issue `ROLLBACK`
and return), then the order insert, the write loop (a thrown error, e.g.
a `CHECK` constraint violation, lands in the catch block: `ROLLBACK` and
a 500), then `COMMIT`, then `invalidateProductCache()` (best effort:
`cacheOk = false` models a failing Redis call, whose error is swallowed),
and finally the post-commit read-back that builds the 201 response. -/
def createOrder (req : RawRequest) (db : Db) (cacheOk : Bool) (cache : Cache) : OrderOutcome :=
  if !(validRequest req) then
    ⟨.validationError, db, cache, [.begin]⟩
  else
    match req.userId with
    | none => ⟨.authRequired, db, cache, [.begin]⟩
    | some uid =>
      match reserveItems db (parseItems req) with
      | .error e => ⟨e, db, cache, [.begin, .rollback]⟩
      | .ok (lines, total) =>
        let inserted := insertOrder db uid total req.shippingAddress
        match writeLines inserted.2 inserted.1.id lines with
        | none => ⟨.serverError, db, cache, [.begin, .rollback]⟩
        | some db2 =>
          let cache1 := if cacheOk then delByPatternProducts cache else cache
          match readBackOrder db2 inserted.1.id with
          | none => ⟨.serverError, db2, cache1, [.begin, .commit, .cacheInvalidate, .rollback]⟩
          | some co => ⟨.created co, db2, cache1, [.begin, .commit, .cacheInvalidate]⟩

/-! ### Concurrent reservations on one product

For the concurrency claim, single-product reservations running in
separate transactions are modelled as a small interleaving semantics.
Each transaction performs, against one shared `products` row:
1. the `SELECT` of the stock check, which under READ COMMITTED observes
   the latest committed stock; then
2. either an early abort when the observed stock is below the requested
   quantity, or the unconditional `UPDATE stock_quantity = stock_quantity
   - q`.  The `UPDATE` acquires the row lock and holds it until the
   transaction ends, so update-commit sections of different transactions
   serialize; the re-evaluated decrement is rejected by the schema
   constraint `CHECK (stock_quantity >= 0)` when it would drive the stock
   negative, in which case the controller's catch block rolls the
   transaction back (no effect survives).

A schedule is a list of transaction indices; each occurrence advances the
named transaction by one step (first the read, then the guarded
update-and-commit), so every interleaving of the reads and updates is a
schedule. -/

/-- How a single concurrent reservation ends. -/
inductive TxnOutcome where
  | success
  | insufficientStock
  | constraintViolation
deriving Repr, DecidableEq

/-- Progress of one reservation transaction. -/
inductive TxnPhase where
  | initial
  | readDone (observed : Int)
  | finished (outcome : TxnOutcome)
deriving Repr, DecidableEq

/-- One concurrent single-line `createOrder` attempt: the requested
quantity and the transaction's progress. -/
structure ConcTxn where
  qty : Nat
  phase : TxnPhase
deriving Repr, DecidableEq

/-- Shared state: the committed stock of the contested product and the
states of all reservation transactions. -/
structure ConcState where
  stock : Int
  txns : List ConcTxn
deriving Repr, DecidableEq

/-- Advance one transaction by one step (see the section comment):
read, then check-observed / constraint-checked decrement. -/
def stepTxn (stock : Int) (t : ConcTxn) : Int × ConcTxn :=
  match t.phase with
  | .initial => (stock, { t with phase := .readDone stock })
  | .readDone o =>
    if o < (t.qty : Int) then
      (stock, { t with phase := .finished .insufficientStock })
    else if stock - (t.qty : Int) < 0 then
      (stock, { t with phase := .finished .constraintViolation })
    else
      (stock - (t.qty : Int), { t with phase := .finished .success })
  | .finished _ => (stock, t)

/-- Run the scheduler step for transaction `i` (out-of-range indices are
no-ops). -/
def concStep (s : ConcState) (i : Nat) : ConcState :=
  match s.txns.get? i with
  | none => s
  | some t =>
    let r := stepTxn s.stock t
    ⟨r.1, s.txns.set i r.2⟩

/-- Run a whole schedule of interleaved steps. -/
def runSchedule (s : ConcState) : List Nat → ConcState
  | [] => s
  | i :: rest => runSchedule (concStep s i) rest

/-- Initial state: stock `S`, one not-yet-started transaction per
requested quantity. -/
def initState (S : Int) (qtys : List Nat) : ConcState :=
  ⟨S, qtys.map (fun q => ⟨q, .initial⟩)⟩

/-- The quantity a transaction contributed, counted once successful. -/
def succContrib (t : ConcTxn) : Int :=
  match t.phase with
  | .finished .success => (t.qty : Int)
  | _ => 0

/-- Total successfully reserved quantity across the transactions. -/
def successSum (ts : List ConcTxn) : Int :=
  (ts.map succContrib).sum

/-- The global invariant: committed stock is non-negative and stock plus
total successful reservations equals the initial stock. -/
def concInvariant (S : Int) (s : ConcState) : Prop :=
  0 ≤ s.stock ∧ s.stock + successSum s.txns = S

/-- A reservation-path failure outcome of `createOrder`: insufficient
stock or product not found. -/
def isReservationError : OrderResponse → Bool
  | .productNotFound _ => true
  | .insufficientStock _ => true
  | _ => false

/-- Witness database for C2 and the spec scenario `cart = [(A, 2), (B, 1)]`
with `B` at stock 0: product `A` (id 1, price 3, stock 5) and product `B`
(id 2, price 2, stock 0). -/
def dbAB : Db :=
  ⟨[⟨1, "A", "product A", 3, 5, none⟩, ⟨2, "B", "product B", 2, 0, none⟩], [], [], 1, 1⟩

/-- The C2 scenario request: two units of `A`, one unit of `B`. -/
def reqAB : RawRequest :=
  ⟨[⟨1, 2⟩, ⟨2, 1⟩], "10 Main Street, Springfield", some 7⟩

/-- A malformed request: empty cart (zod rejects an empty `items` array),
otherwise well-formed. -/
def reqEmptyCart : RawRequest := ⟨[], "10 Main Street, Springfield", some 7⟩

/-- A malformed request: shipping address shorter than 10 characters. -/
def reqShortAddress : RawRequest := ⟨[⟨1, 1⟩], "short", some 7⟩

/-- A malformed request: non-positive quantity on a cart line. -/
def reqZeroQuantity : RawRequest := ⟨[⟨1, 0⟩], "10 Main Street, Springfield", some 7⟩

/-- The catalog view of a product relevant to order pricing: its name and
price (stock excluded). -/
def prodView (p : Product) : String × Int := (p.name, p.price)

/-- The price the stock check fetches for a product id (0 when absent; on
the success path the product is always present). -/
def priceOf (db : Db) (pid : Nat) : Int :=
  ((findProduct db pid).map Product.price).getD 0

/-- Well-formedness of the store: SERIAL primary keys already assigned
are below the sequence counters. -/
def wfDb (db : Db) : Bool :=
  db.orders.all (fun o => decide (o.id < db.nextOrderId)) &&
    db.orderItems.all (fun oi => decide (oi.orderId < db.nextOrderId))

/-- The successful single-line order request used by the success-path
witnesses: two units of product `A`. -/
def reqOneA : RawRequest := ⟨[⟨1, 2⟩], "10 Main Street, Springfield", some 7⟩

/-- The complete order `createOrder` returns for `reqOneA` against
`dbAB`: order id 1, total 6, one line of two units of `A` at unit price
3, subtotal 6. -/
def coA : CompleteOrder :=
  ⟨1, 6, "pending", "10 Main Street, Springfield", [⟨1, 1, "A", 3, 2, 6⟩]⟩

/-- Query parameters of the products listing route
(`GET /api/products`). -/
structure ListingParams where
  page : Nat
  limit : Nat
  category : Option Nat
  search : Option String
deriving Repr, DecidableEq

/-- The `category` component of the cache key: `category || 'all'`
(JavaScript falsiness: the number 0 also yields `all`). -/
def catKeyPart : Option Nat → String
  | none => "all"
  | some c => if c == 0 then "all" else toString c

/-- The `search` component of the cache key: `search || 'none'` (the
empty string is falsy). -/
def searchKeyPart : Option String → String
  | none => "none"
  | some s => if s == "" then "none" else s

/-- The cache key the listing route writes:
`products:page:limit:category:search`. -/
def listingKey (q : ListingParams) : String :=
  "products:" ++ toString q.page ++ ":" ++ toString q.limit ++ ":"
    ++ catKeyPart q.category ++ ":" ++ searchKeyPart q.search

/-- Character-list containment, modelling SQL `ILIKE '%s%'` after
lower-casing. -/
def containsSeg (needle hay : List Char) : Bool :=
  match hay with
  | [] => needle.isPrefixOf []
  | _ :: t => needle.isPrefixOf hay || containsSeg needle t

/-- The search filter of the listing query: name or description contains
the search string, case-insensitively. -/
def matchesSearch (p : Product) (s : String) : Bool :=
  containsSeg s.toLower.toList p.name.toLower.toList ||
    containsSeg s.toLower.toList p.description.toLower.toList

/-- The category filter of the listing query. -/
def matchesCategory (p : Product) : Option Nat → Bool
  | none => true
  | some c => p.categoryId == some c

/-- The WHERE clause of the listing query. -/
def listingFilter (db : Db) (q : ListingParams) : List Product :=
  db.products.filter (fun p =>
    matchesCategory p q.category &&
      (match q.search with
       | none => true
       | some s => if s.trim == "" then true else matchesSearch p s))

/-- The listing page computed from the database: filtered products,
paginated with `LIMIT`/`OFFSET` (the stored list order stands in for
`ORDER BY created_at DESC`), plus the total count. -/
def listingFromDb (db : Db) (q : ListingParams) : ListingPage :=
  ⟨((listingFilter db q).drop ((q.page - 1) * q.limit)).take q.limit,
    q.page, q.limit, (listingFilter db q).length⟩

/-- Where a listing response came from. -/
inductive ListingSource where
  | fromCache
  | fromDb
deriving Repr, DecidableEq

/-- The listing route against the modelled cache: serve the cached page
for the request's key when present, otherwise read the database and cache
the fresh page. -/
def serveListing (db : Db) (cache : Cache) (q : ListingParams) :
    (ListingSource × ListingPage) × Cache :=
  match cacheLookup cache (listingKey q) with
  | some pg => ((.fromCache, pg), cache)
  | none =>
    ((.fromDb, listingFromDb db q), cacheStore cache (listingKey q) (listingFromDb db q))

/-- An error thrown by the Redis client. -/
structure RedisError where
  message : String
deriving Repr, DecidableEq

/-- `CacheService.get`: the underlying `redis.get` either throws or
returns an optional serialized value.  The method's try/catch returns
null on a thrown error; a present value is `JSON.parse`d (a parse that
throws is likewise caught, returning null, modelled by a partial
`parse`). -/
def cacheServiceGet (redisGet : Except RedisError (Option String))
    (parse : String → Option ListingPage) : Except RedisError (Option ListingPage) :=
  match redisGet with
  | .error _ => .ok none
  | .ok none => .ok none
  | .ok (some s) => .ok (parse s)

/-- `CacheService.set`: `redis.setex` wrapped in try/catch — a thrown
error is logged and swallowed. -/
def cacheServiceSet (redisSetex : Except RedisError Unit) : Except RedisError Unit :=
  match redisSetex with
  | .error _ => .ok ()
  | .ok _ => .ok ()

/-- `CacheService.del`: `redis.del` wrapped in try/catch. -/
def cacheServiceDel (redisDel : Except RedisError Unit) : Except RedisError Unit :=
  match redisDel with
  | .error _ => .ok ()
  | .ok _ => .ok ()

/-- `CacheService.delByPattern`: `redis.keys(pattern)` followed by a
`redis.del` of the matches (skipped when there are none), all wrapped in
one try/catch that logs and swallows any thrown error. -/
def cacheServiceDelByPattern (redisKeys : Except RedisError (List String))
    (redisDel : List String → Except RedisError Unit) : Except RedisError Unit :=
  match redisKeys with
  | .error _ => .ok ()
  | .ok keys =>
    if keys.isEmpty then .ok ()
    else
      match redisDel keys with
      | .error _ => .ok ()
      | .ok _ => .ok ()

/-- The listing route's cache consultation in terms of `CacheService.get`:
an `ok none` (miss or swallowed cache error) falls through to the
database read; only a propagated error would fail the request. -/
def routeListing (db : Db) (q : ListingParams)
    (redisGet : Except RedisError (Option String))
    (parse : String → Option ListingPage) :
    Except RedisError (ListingSource × ListingPage) :=
  match cacheServiceGet redisGet parse with
  | .error e => .error e
  | .ok (some pg) => .ok (.fromCache, pg)
  | .ok none => .ok (.fromDb, listingFromDb db q)

/-- A stale pre-commit cache entry under the listing namespace, used by
the C8 witness. -/
def staleCache : Cache := [("products:1:12:all:none", ⟨[], 1, 12, 0⟩)]

/-- Default listing parameters (page 1, limit 12, no filters). -/
def qDefault : ListingParams := ⟨1, 12, none, none⟩

/-- The database for the C9 witness: product 9 `Gadget`, one unit in
stock, price 4. -/
def dbGadget : Db := ⟨[⟨9, "Gadget", "a gadget", 4, 1, none⟩], [], [], 1, 1⟩

/-- The C9 witness request: two units of product 9. -/
def reqTwoGadgets : RawRequest := ⟨[⟨9, 2⟩], "10 Main Street, Springfield", some 3⟩

/-! ### Invariant lemmas for the concurrent model -/

/-- One transaction step is stock-accounting neutral: the committed stock
plus the transaction's successful contribution is unchanged, and a
non-negative stock stays non-negative. -/
theorem stepTxn_accounting (stock : Int) (t : ConcTxn) :
    (stepTxn stock t).1 + succContrib (stepTxn stock t).2 = stock + succContrib t ∧
      (0 ≤ stock → 0 ≤ (stepTxn stock t).1) := by
  cases ht : t.phase with
  | initial => simp [stepTxn, ht, succContrib]
  | readDone o =>
    by_cases h1 : o < (t.qty : Int)
    · simp [stepTxn, ht, h1, succContrib]
    · by_cases h2 : stock - (t.qty : Int) < 0
      · simp [stepTxn, ht, h1, h2, succContrib]
      · simp only [stepTxn, ht, h1, h2, if_false, if_neg h1, if_neg h2, succContrib]
        constructor
        · ring
        · intro _; omega
  | finished o => simp [stepTxn, ht, succContrib]

/-- Replacing the `i`-th transaction changes `successSum` by the
difference of the contributions. -/
theorem successSum_set (ts : List ConcTxn) (i : Nat) (t t2 : ConcTxn)
    (h : ts.get? i = some t) :
    successSum (ts.set i t2) = successSum ts - succContrib t + succContrib t2 := by
  induction ts generalizing i with
  | nil => simp at h
  | cons hd tl ih =>
    cases i with
    | zero =>
      simp only [List.get?] at h
      cases h
      simp [successSum]
      ring
    | succ j =>
      simp only [List.get?] at h
      simp [successSum, List.set]
      have := ih j h
      simp [successSum] at this
      rw [this]
      ring

/-- A scheduler step preserves the invariant. -/
theorem concStep_invariant (S : Int) (s : ConcState) (i : Nat)
    (h : concInvariant S s) : concInvariant S (concStep s i) := by
  rcases h with ⟨hpos, hsum⟩
  unfold concStep
  cases hg : s.txns.get? i with
  | none => exact ⟨hpos, hsum⟩
  | some t =>
    have hacc := stepTxn_accounting s.stock t
    have hset := successSum_set s.txns i t (stepTxn s.stock t).2 hg
    refine ⟨hacc.2 hpos, ?_⟩
    simp only [hset]
    have h1 := hacc.1
    omega

/-- Running any schedule preserves the invariant. -/
theorem runSchedule_invariant (S : Int) (s : ConcState) (sched : List Nat)
    (h : concInvariant S s) : concInvariant S (runSchedule s sched) := by
  induction sched generalizing s with
  | nil => exact h
  | cons i rest ih => exact ih (concStep s i) (concStep_invariant S s i h)

/-- The initial state satisfies the invariant whenever the initial stock
is non-negative. -/
theorem initState_invariant (S : Int) (qtys : List Nat) (hS : 0 ≤ S) :
    concInvariant S (initState S qtys) := by
  refine ⟨hS, ?_⟩
  have : successSum ((initState S qtys).txns) = 0 := by
    simp only [initState, successSum]
    induction qtys with
    | nil => simp
    | cons q rest ih => simpa [succContrib] using ih
  simp [initState] at this ⊢
  omega

/-! ### Claims -/

/-- Claim C1: for a product with initial stock `S ≥ 0` and any set of
concurrent `placeOrder` reservations against it (any quantities, any
interleaving of their stock-check reads and their updates), the sum of
successfully reserved quantities never exceeds `S`, and the final
committed `stock_quantity` equals `S` minus that sum and stays
non-negative.  In the code the two-step read-then-update is guarded not
by the application logic but by the schema constraint
`CHECK (stock_quantity >= 0)` together with the row-level lock taken by
the `UPDATE` (modelled in `stepTxn`): an update that would drive the
stock negative raises, the catch block rolls that transaction back, and
its reservation does not count as successful. -/
theorem c1_concurrent_reservations_never_oversell
    (S : Int) (qtys : List Nat) (sched : List Nat) (hS : 0 ≤ S) :
    successSum (runSchedule (initState S qtys) sched).txns ≤ S ∧
      (runSchedule (initState S qtys) sched).stock
        = S - successSum (runSchedule (initState S qtys) sched).txns ∧
      0 ≤ (runSchedule (initState S qtys) sched).stock := by
  have h := runSchedule_invariant S (initState S qtys) sched
    (initState_invariant S qtys hS)
  rcases h with ⟨h1, h2⟩
  omega

/-- Witness for C1: the spec scenario, stock 1 and two concurrent
one-unit reservations, under the fully interleaved schedule in which
both transactions read before either updates. -/
theorem c1_concurrent_reservations_never_oversell_witness :
    (0 : Int) ≤ 1 ∧
      (successSum (runSchedule (initState 1 [1, 1]) [0, 1, 0, 1]).txns ≤ 1 ∧
        (runSchedule (initState 1 [1, 1]) [0, 1, 0, 1]).stock
          = 1 - successSum (runSchedule (initState 1 [1, 1]) [0, 1, 0, 1]).txns ∧
        0 ≤ (runSchedule (initState 1 [1, 1]) [0, 1, 0, 1]).stock) :=
  ⟨by decide, c1_concurrent_reservations_never_oversell 1 [1, 1] [0, 1, 0, 1] (by decide)⟩

/-- Anatomy of a `createOrder` call that failed in the stock-check loop
(`ProductNotFound` or `InsufficientStock`): the database and cache are
untouched, the transaction was begun and rolled back, and the response is
exactly the error produced by the stock-check loop. -/
theorem createOrder_reservation_error_anatomy
    (req : RawRequest) (db : Db) (cacheOk : Bool) (cache : Cache)
    (h : isReservationError (createOrder req db cacheOk cache).response = true) :
    (createOrder req db cacheOk cache).db = db ∧
      (createOrder req db cacheOk cache).cache = cache ∧
      (createOrder req db cacheOk cache).trace = [.begin, .rollback] ∧
      reserveItems db (parseItems req)
        = .error (createOrder req db cacheOk cache).response := by
  unfold createOrder at h ⊢
  cases hv : validRequest req with
  | false => simp [hv, isReservationError] at h
  | true =>
    simp only [hv, Bool.not_true, Bool.false_eq_true, if_false] at h ⊢
    cases hu : req.userId with
    | none => simp [hu, isReservationError] at h
    | some uid =>
      simp only [hu] at h ⊢
      cases hr : reserveItems db (parseItems req) with
      | error e => simp [hr]
      | ok v =>
        obtain ⟨lines, total⟩ := v
        simp only [hr] at h ⊢
        cases hw : writeLines (insertOrder db uid total req.shippingAddress).2
            (insertOrder db uid total req.shippingAddress).1.id lines with
        | none => simp [hw, isReservationError] at h
        | some db2 =>
          simp only [hw] at h ⊢
          cases hb : readBackOrder db2 (insertOrder db uid total req.shippingAddress).1.id with
          | none => simp [hb, isReservationError] at h
          | some co => simp [hb, isReservationError] at h

/-- Claim C2: whenever `createOrder` fails with `InsufficientStock` or
`ProductNotFound` on any line of a multi-item cart, the database is left
exactly as before the call — no stock decrement, no `orders` row and no
`order_items` row for any line of that cart — and the transaction was
rolled back. -/
theorem c2_failed_reservation_leaves_db_unchanged
    (req : RawRequest) (db : Db) (cacheOk : Bool) (cache : Cache)
    (h : isReservationError (createOrder req db cacheOk cache).response = true) :
    (createOrder req db cacheOk cache).db = db ∧
      (createOrder req db cacheOk cache).cache = cache ∧
      (createOrder req db cacheOk cache).trace = [.begin, .rollback] := by
  obtain ⟨h1, h2, h3, _⟩ := createOrder_reservation_error_anatomy req db cacheOk cache h
  exact ⟨h1, h2, h3⟩

/-- Witness for C2: the spec scenario.  The call fails with
`InsufficientStock` for `B` (available 0, requested 1), `A`'s stock is
untouched and no order or line-item row exists afterwards. -/
theorem c2_failed_reservation_leaves_db_unchanged_witness :
    isReservationError (createOrder reqAB dbAB true []).response = true ∧
      (createOrder reqAB dbAB true []).response
        = .insufficientStock (insufficientStockMessage "B" 0 1) ∧
      ((createOrder reqAB dbAB true []).db = dbAB ∧
        (createOrder reqAB dbAB true []).cache = [] ∧
        (createOrder reqAB dbAB true []).trace = [.begin, .rollback]) :=
  ⟨by decide, by decide,
    c2_failed_reservation_leaves_db_unchanged reqAB dbAB true [] (by decide)⟩

/-- Claim C3 (code bug): the claim says every error raised while the
transaction is open — explicitly including validation failures, which in
the code occur after `BEGIN` — triggers a rollback before the error is
returned.  The code violates this: on a malformed cart, `createOrder`
issues `BEGIN`, then returns the 400 validation error via an early
`return` that never reaches any `ROLLBACK` (the `finally` block only
releases the pooled client).  The trace of the attempt is exactly
`[BEGIN]`: no rollback, no commit, the transaction is left open. -/
theorem c3_validation_error_returns_without_rollback :
    (createOrder reqEmptyCart dbAB true []).response = .validationError ∧
      (createOrder reqEmptyCart dbAB true []).trace = [.begin] ∧
      DbEvent.rollback ∉ (createOrder reqEmptyCart dbAB true []).trace ∧
      DbEvent.commit ∉ (createOrder reqEmptyCart dbAB true []).trace := by
  decide

/-- Counterexample for claim C4: a malformed request is rejected as a
validation error, but NOT before a database transaction is opened —
`BEGIN` is in the trace of the rejected attempt, because the code starts
the transaction before running validation. -/
theorem c4_counterexample :
    (createOrder reqShortAddress dbAB true []).response = .validationError ∧
      DbEvent.begin ∈ (createOrder reqShortAddress dbAB true []).trace := by
  decide

/-- Claim C4 as amended: every request with a malformed cart or malformed
shipping address is rejected as a validation error with the database and
cache untouched and nothing committed, but the rejection happens after
the transaction was opened — `BEGIN` is issued first (and the rejected
attempt issues no rollback). -/
theorem c4_malformed_request_rejected_after_begin
    (req : RawRequest) (db : Db) (cacheOk : Bool) (cache : Cache)
    (h : validRequest req = false) :
    createOrder req db cacheOk cache = ⟨.validationError, db, cache, [.begin]⟩ := by
  unfold createOrder
  simp [h]

/-- Witness for the amended C4, at a cart line with quantity 0. -/
theorem c4_malformed_request_rejected_after_begin_witness :
    validRequest reqZeroQuantity = false ∧
      createOrder reqZeroQuantity dbAB true [] = ⟨.validationError, dbAB, [], [.begin]⟩ :=
  ⟨by decide, c4_malformed_request_rejected_after_begin reqZeroQuantity dbAB true [] (by decide)⟩

/-- What the stock-check loop guarantees on success: every cart line's
product exists, the captured lines mirror the cart lines with the fetched
prices, and the accumulated total is the sum of fetched price times
quantity — equivalently, of the captured lines' `unitPrice * quantity`. -/
theorem reserveItems_spec (db : Db) (items : List CartItem) (lines : List ReservedLine)
    (total : Int) (h : reserveItems db items = .ok (lines, total)) :
    lines = items.map (fun it => ⟨it.productId, it.quantity, priceOf db it.productId⟩) ∧
      total = (items.map (fun it => priceOf db it.productId * (it.quantity : Int))).sum ∧
      total = (lines.map (fun l => l.unitPrice * (l.quantity : Int))).sum ∧
      ∀ it ∈ items, (findProduct db it.productId).isSome = true := by
  induction items generalizing lines total with
  | nil =>
    simp only [reserveItems] at h
    cases h
    simp
  | cons it rest ih =>
    simp only [reserveItems] at h
    cases hp : findProduct db it.productId with
    | none => simp [hp] at h
    | some p =>
      simp only [hp] at h
      by_cases hs : p.stock < (it.quantity : Int)
      · rw [if_pos hs] at h; exact absurd h (by simp)
      · rw [if_neg hs] at h
        cases hr : reserveItems db rest with
        | error e => simp [hr] at h
        | ok v =>
          obtain ⟨ls, t⟩ := v
          simp only [hr] at h
          cases h
          obtain ⟨ihl, iht, ihs, ihm⟩ := ih ls t hr
          have hpr : priceOf db it.productId = p.price := by simp [priceOf, hp]
          refine ⟨?_, ?_, ?_, ?_⟩
          · simp [hpr, ihl]
          · simp [hpr, iht]
          · simp [ihs]
          · intro x hx
            rcases List.mem_cons.mp hx with hx | hx
            · rw [hx, hp]; rfl
            · exact ihm x hx

/-- What a successful constraint-checked stock decrement guarantees: only
the `products` table changes, and only the `stock` column — the catalog
view (name and price) of every product is untouched. -/
theorem decrementStock_spec (db : Db) (pid0 q : Nat) (db1 : Db)
    (h : decrementStock db pid0 q = some db1) :
    db1.orders = db.orders ∧ db1.orderItems = db.orderItems ∧
      db1.nextOrderId = db.nextOrderId ∧ db1.nextOrderItemId = db.nextOrderItemId ∧
      ∀ pid, (findProduct db1 pid).map prodView = (findProduct db pid).map prodView := by
  unfold decrementStock at h
  split at h
  · exact absurd h (by simp)
  · cases h
    refine ⟨rfl, rfl, rfl, rfl, ?_⟩
    intro pid
    show ((db.products.map (fun p =>
        if p.id == pid0 then { p with stock := p.stock - (q : Int) } else p)).find?
          (fun p => p.id == pid)).map prodView
      = ((db.products.find? (fun p => p.id == pid)).map prodView)
    rw [List.find?_map]
    have hcomp : ((fun p : Product => p.id == pid) ∘
        (fun p : Product => if p.id == pid0 then
          { p with stock := p.stock - (q : Int) } else p))
        = (fun p : Product => p.id == pid) := by
      funext p
      simp only [Function.comp_apply]
      split <;> rfl
    rw [hcomp]
    cases db.products.find? (fun p => p.id == pid) with
    | none => rfl
    | some p =>
      show some (prodView (if p.id == pid0 then
          { p with stock := p.stock - (q : Int) } else p)) = some (prodView p)
      congr 1
      split <;> rfl

/-- What the write loop guarantees on success: `orders` rows, the order
sequence counter and the catalog view of every product are untouched, and
the `order_items` table grows by exactly one row per reserved line,
carrying the order id and the line's product, captured unit price and
quantity. -/
theorem writeLines_spec (lines : List ReservedLine) (db : Db) (oid : Nat) (db2 : Db)
    (h : writeLines db oid lines = some db2) :
    db2.orders = db.orders ∧ db2.nextOrderId = db.nextOrderId ∧
      (∃ rows, db2.orderItems = db.orderItems ++ rows ∧
        List.Forall₂ (fun (r : OrderItemRow) (l : ReservedLine) =>
          r.orderId = oid ∧ r.productId = l.productId ∧
            r.unitPrice = l.unitPrice ∧ r.quantity = l.quantity) rows lines) ∧
      ∀ pid, (findProduct db2 pid).map prodView = (findProduct db pid).map prodView := by
  induction lines generalizing db with
  | nil =>
    simp only [writeLines] at h
    cases h
    exact ⟨rfl, rfl, ⟨[], by simp, List.Forall₂.nil⟩, fun _ => rfl⟩
  | cons line rest ih =>
    simp only [writeLines] at h
    cases hd : decrementStock (insertOrderItem db oid line) line.productId line.quantity with
    | none => rw [hd] at h; exact absurd h (by simp)
    | some db1 =>
      rw [hd] at h
      obtain ⟨ho, hn, ⟨rows, hrows, hfa⟩, hview⟩ := ih db1 h
      obtain ⟨ho1, hi1, hn1, _, hview1⟩ :=
        decrementStock_spec (insertOrderItem db oid line) line.productId line.quantity db1 hd
      refine ⟨ho.trans ho1, hn.trans hn1, ?_,
        fun pid => (hview pid).trans (hview1 pid)⟩
      refine ⟨⟨db.nextOrderItemId, oid, line.productId, line.unitPrice, line.quantity⟩ :: rows,
        ?_, List.Forall₂.cons ⟨rfl, rfl, rfl, rfl⟩ hfa⟩
      rw [hrows, hi1]
      show (db.orderItems ++
          [⟨db.nextOrderItemId, oid, line.productId, line.unitPrice, line.quantity⟩]) ++ rows
        = db.orderItems ++
            (⟨db.nextOrderItemId, oid, line.productId, line.unitPrice, line.quantity⟩ :: rows)
      simp

/-- The stock-check loop only ever fails with `ProductNotFound` or
`InsufficientStock`. -/
theorem reserveItems_error_shape (db : Db) (items : List CartItem) (e : OrderResponse)
    (h : reserveItems db items = .error e) : isReservationError e = true := by
  induction items with
  | nil => simp [reserveItems] at h
  | cons it rest ih =>
    simp only [reserveItems] at h
    cases hp : findProduct db it.productId with
    | none =>
      simp only [hp, Except.error.injEq] at h
      rw [← h]
      rfl
    | some p =>
      simp only [hp] at h
      by_cases hs : p.stock < (it.quantity : Int)
      · rw [if_pos hs] at h
        cases h
        rfl
      · rw [if_neg hs] at h
        cases hr : reserveItems db rest with
        | error e2 =>
          rw [hr] at h
          cases h
          exact ih hr
        | ok v =>
          obtain ⟨ls, t⟩ := v
          simp [hr] at h

/-- Decomposition of a successful `createOrder` run: validation and
authentication passed, the stock check succeeded, the write loop
succeeded, and the response is the post-commit read-back of the order
under the freshly assigned id `db.nextOrderId`. -/
theorem createOrder_created_elim (req : RawRequest) (db : Db) (cacheOk : Bool) (cache : Cache)
    (co : CompleteOrder)
    (h : (createOrder req db cacheOk cache).response = .created co) :
    ∃ uid lines total db2,
      validRequest req = true ∧ req.userId = some uid ∧
      reserveItems db (parseItems req) = .ok (lines, total) ∧
      writeLines (insertOrder db uid total req.shippingAddress).2 db.nextOrderId lines
        = some db2 ∧
      (createOrder req db cacheOk cache).db = db2 ∧
      (createOrder req db cacheOk cache).cache
        = (if cacheOk then delByPatternProducts cache else cache) ∧
      readBackOrder db2 db.nextOrderId = some co := by
  unfold createOrder at h ⊢
  cases hv : validRequest req with
  | false => simp [hv] at h
  | true =>
    simp only [hv, Bool.not_true, Bool.false_eq_true, if_false] at h ⊢
    cases hu : req.userId with
    | none => simp [hu] at h
    | some uid =>
      simp only [hu] at h ⊢
      cases hr : reserveItems db (parseItems req) with
      | error e =>
        simp only [hr] at h
        have he := reserveItems_error_shape db (parseItems req) e hr
        rw [h] at he
        simp [isReservationError] at he
      | ok v =>
        obtain ⟨lines, total⟩ := v
        simp only [hr] at h ⊢
        cases hw : writeLines (insertOrder db uid total req.shippingAddress).2
            (insertOrder db uid total req.shippingAddress).1.id lines with
        | none => simp [hw] at h
        | some db2 =>
          simp only [hw] at h ⊢
          cases hb : readBackOrder db2 (insertOrder db uid total req.shippingAddress).1.id with
          | none => simp [hb] at h
          | some co0 =>
            simp only [hb, OrderResponse.created.injEq] at h
            exact ⟨uid, lines, total, db2, trivial, rfl, rfl, hw, rfl, rfl, h ▸ hb⟩

/-- Left-to-right membership view of a `Forall₂` relation. -/
theorem forall2_mem_left {α β : Type} {R : α → β → Prop} {xs : List α} {ys : List β}
    (h : List.Forall₂ R xs ys) : ∀ x ∈ xs, ∃ y ∈ ys, R x y := by
  induction h with
  | nil => intro x hx; exact absurd hx (List.not_mem_nil x)
  | cons hr _ ih =>
    intro x hx
    rcases List.mem_cons.mp hx with hx | hx
    · exact ⟨_, List.mem_cons_self _ _, hx ▸ hr⟩
    · obtain ⟨y, hy, hxy⟩ := ih x hx
      exact ⟨y, List.mem_cons_of_mem _ hy, hxy⟩

/-- Rows and reserved lines related by the write loop have equal
`unit_price * quantity` sums. -/
theorem forall2_subtotal_sum (oid : Nat) (rows : List OrderItemRow) (lines : List ReservedLine)
    (hfa : List.Forall₂ (fun (r : OrderItemRow) (l : ReservedLine) =>
      r.orderId = oid ∧ r.productId = l.productId ∧
        r.unitPrice = l.unitPrice ∧ r.quantity = l.quantity) rows lines) :
    (rows.map (fun r => r.unitPrice * (r.quantity : Int))).sum
      = (lines.map (fun l => l.unitPrice * (l.quantity : Int))).sum := by
  induction hfa with
  | nil => rfl
  | cons hr _ ih =>
    obtain ⟨-, -, hp, hq⟩ := hr
    simp [ih, hp, hq]

/-- The read-back join drops no row whose product exists, and its
per-item `subtotal` column recovers `unit_price * quantity`. -/
theorem readBackItems_subtotal_sum (db2 : Db) (rows : List OrderItemRow)
    (hsome : ∀ r ∈ rows, (findProduct db2 r.productId).isSome = true) :
    ((rows.filterMap (fun oi =>
        match findProduct db2 oi.productId with
        | none => none
        | some p => some (⟨oi.id, oi.productId, p.name, oi.unitPrice, oi.quantity,
            oi.unitPrice * (oi.quantity : Int)⟩ : CompleteOrderItem))).map
      (fun i => i.subtotal)).sum
      = (rows.map (fun r => r.unitPrice * (r.quantity : Int))).sum := by
  induction rows with
  | nil => rfl
  | cons r rest ih =>
    have hr := hsome r (List.mem_cons_self r rest)
    cases hf : findProduct db2 r.productId with
    | none => rw [hf] at hr; simp at hr
    | some p =>
      have ihr := ih (fun x hx => hsome x (List.mem_cons_of_mem r hx))
      simp only [List.filterMap_cons, hf, List.map_cons, List.sum_cons, ihr]

/-- Looking up a freshly assigned id in `orders ++ [new row]` finds
exactly the new row when all pre-existing ids differ from it. -/
theorem find?_fresh_order (olds : List OrderRow) (row : OrderRow) (n : Nat)
    (hl : ∀ o ∈ olds, o.id ≠ n) (hrow : row.id = n) :
    (olds ++ [row]).find? (fun o => o.id == n) = some row := by
  rw [List.find?_append]
  have h1 : olds.find? (fun o => o.id == n) = none :=
    List.find?_eq_none.mpr (fun x hx => by simp [hl x hx])
  rw [h1]
  simp [List.find?, hrow]

/-- Full anatomy of a successful `createOrder` call against a well-formed
store: the total accumulated by the stock check is both the `total_amount`
of the inserted `orders` row and the `totalAmount` of the response, the
response is the read-back of the new order id from the committed state,
and its line subtotals sum to that same total. -/
theorem createOrder_success_anatomy
    (req : RawRequest) (db : Db) (cacheOk : Bool) (cache : Cache) (co : CompleteOrder)
    (hwf : wfDb db = true)
    (h : (createOrder req db cacheOk cache).response = .created co) :
    ∃ uid lines total db2,
      req.userId = some uid ∧
      reserveItems db (parseItems req) = .ok (lines, total) ∧
      (createOrder req db cacheOk cache).db = db2 ∧
      (createOrder req db cacheOk cache).cache
        = (if cacheOk then delByPatternProducts cache else cache) ∧
      db2.orders = db.orders ++ [⟨db.nextOrderId, uid, total, "pending", req.shippingAddress⟩] ∧
      co.id = db.nextOrderId ∧
      co.totalAmount = total ∧
      readBackOrder db2 co.id = some co ∧
      (co.items.map (fun i => i.subtotal)).sum = total := by
  obtain ⟨uid, lines, total, db2, hv, hu, hr, hw, hdb, hcache, hb⟩ :=
    createOrder_created_elim req db cacheOk cache co h
  obtain ⟨hlines, htot, hlsum, hfound⟩ := reserveItems_spec db (parseItems req) lines total hr
  obtain ⟨ho2, hn2, ⟨rows, hrows, hfa⟩, hview⟩ :=
    writeLines_spec lines (insertOrder db uid total req.shippingAddress).2 db.nextOrderId db2 hw
  simp only [wfDb, Bool.and_eq_true, List.all_eq_true, decide_eq_true_eq] at hwf
  have hne : ∀ o ∈ db.orders, o.id ≠ db.nextOrderId :=
    fun o ho => Nat.ne_of_lt (hwf.1 o ho)
  have horders : db2.orders = db.orders ++
      [⟨db.nextOrderId, uid, total, "pending", req.shippingAddress⟩] := ho2
  have hfind : db2.orders.find? (fun o => o.id == db.nextOrderId)
      = some ⟨db.nextOrderId, uid, total, "pending", req.shippingAddress⟩ := by
    rw [horders]
    exact find?_fresh_order db.orders _ db.nextOrderId hne rfl
  unfold readBackOrder at hb
  rw [hfind] at hb
  simp only [Option.some.injEq] at hb
  -- the items actually read back: exactly the inserted rows
  have hitems_rows : db2.orderItems.filter (fun oi => oi.orderId == db.nextOrderId) = rows := by
    have hbase : db2.orderItems = db.orderItems ++ rows := hrows
    rw [hbase, List.filter_append]
    have h1 : db.orderItems.filter (fun oi => oi.orderId == db.nextOrderId) = [] := by
      rw [List.filter_eq_nil_iff]
      intro oi hoi
      simp only [beq_iff_eq]
      exact Nat.ne_of_lt (hwf.2 oi hoi)
    have h2 : rows.filter (fun oi => oi.orderId == db.nextOrderId) = rows := by
      rw [List.filter_eq_self]
      intro r hrm
      obtain ⟨l, _, hrel⟩ := forall2_mem_left hfa r hrm
      simp [hrel.1]
    rw [h1, h2, List.nil_append]
  have hsome2 : ∀ r ∈ rows, (findProduct db2 r.productId).isSome = true := by
    intro r hrm
    obtain ⟨l, hlm, hrel⟩ := forall2_mem_left hfa r hrm
    obtain ⟨it, hitm, hit⟩ := List.mem_map.mp (hlines ▸ hlm)
    have hsrc : (findProduct db it.productId).isSome = true := hfound it hitm
    have hpid : r.productId = it.productId := by rw [hrel.2.1, ← hit]
    have hview2 := congrArg Option.isSome (hview r.productId)
    have hsame : (findProduct db2 r.productId).isSome = (findProduct db r.productId).isSome := by
      simpa [Option.isSome_map'] using hview2
    rw [hsame, hpid]
    exact hsrc
  have hsub : ((readBackItems db2 db.nextOrderId).map (fun i => i.subtotal)).sum = total := by
    unfold readBackItems
    rw [hitems_rows, readBackItems_subtotal_sum db2 rows hsome2,
      forall2_subtotal_sum db.nextOrderId rows lines hfa]
    exact hlsum.symm
  have hcoid : co.id = db.nextOrderId := by rw [← hb]
  refine ⟨uid, lines, total, db2, hu, hr, hdb, hcache, horders, hcoid, ?_, ?_, ?_⟩
  · rw [← hb]
  · rw [hcoid]
    unfold readBackOrder
    rw [hfind, ← hb]
  · rw [← hb]
    exact hsub

/-- Claim C5: for every successfully placed order, the recorded
`total_amount` — both in the response and in the inserted `orders` row —
equals the sum over the cart lines of `unit_price * quantity`, where each
unit price is the one fetched from the `products` table during this
transaction's stock check (`priceOf db`).  The request type carries no
price field at all, so no caller-supplied price can enter the total. -/
theorem c5_total_amount_is_sum_of_fetched_prices
    (req : RawRequest) (db : Db) (cacheOk : Bool) (cache : Cache) (co : CompleteOrder)
    (hwf : wfDb db = true)
    (h : (createOrder req db cacheOk cache).response = .created co) :
    co.totalAmount
        = ((parseItems req).map (fun it => priceOf db it.productId * (it.quantity : Int))).sum ∧
      ∃ row ∈ (createOrder req db cacheOk cache).db.orders,
        row.id = co.id ∧ row.totalAmount = co.totalAmount := by
  obtain ⟨uid, lines, total, db2, hu, hr, hdb, hcache, horders, hcoid, hcototal, hrb, hsub⟩ :=
    createOrder_success_anatomy req db cacheOk cache co hwf h
  obtain ⟨hlines, htot, hlsum, hfound⟩ := reserveItems_spec db (parseItems req) lines total hr
  refine ⟨by rw [hcototal, htot], ?_⟩
  refine ⟨⟨db.nextOrderId, uid, total, "pending", req.shippingAddress⟩, ?_, ?_, ?_⟩
  · rw [hdb, horders]
    exact List.mem_append_right _ (List.mem_singleton.mpr rfl)
  · rw [hcoid]
  · rw [hcototal]

/-- Witness for C5 at a concrete successful order. -/
theorem c5_total_amount_is_sum_of_fetched_prices_witness :
    (wfDb dbAB = true ∧ (createOrder reqOneA dbAB true []).response = .created coA) ∧
      (coA.totalAmount
          = ((parseItems reqOneA).map
              (fun it => priceOf dbAB it.productId * (it.quantity : Int))).sum ∧
        ∃ row ∈ (createOrder reqOneA dbAB true []).db.orders,
          row.id = coA.id ∧ row.totalAmount = coA.totalAmount) :=
  ⟨⟨by decide, by decide⟩,
    c5_total_amount_is_sum_of_fetched_prices reqOneA dbAB true [] coA (by decide) (by decide)⟩

/-- Claim C6: for every successful `createOrder` call, the response is
the fully assembled order — header plus all line items — read back by the
newly assigned order id from the committed (post-commit) database state,
and the returned header's `total_amount` equals the sum of its line
subtotals (`unit_price * quantity`). -/
theorem c6_success_response_is_post_commit_read_back
    (req : RawRequest) (db : Db) (cacheOk : Bool) (cache : Cache) (co : CompleteOrder)
    (hwf : wfDb db = true)
    (h : (createOrder req db cacheOk cache).response = .created co) :
    readBackOrder (createOrder req db cacheOk cache).db co.id = some co ∧
      co.totalAmount = (co.items.map (fun i => i.subtotal)).sum := by
  obtain ⟨uid, lines, total, db2, hu, hr, hdb, hcache, horders, hcoid, hcototal, hrb, hsub⟩ :=
    createOrder_success_anatomy req db cacheOk cache co hwf h
  refine ⟨?_, hcototal.trans hsub.symm⟩
  rw [hdb]
  exact hrb

/-- Witness for C6 at a concrete successful order. -/
theorem c6_success_response_is_post_commit_read_back_witness :
    (wfDb dbAB = true ∧ (createOrder reqOneA dbAB true []).response = .created coA) ∧
      (readBackOrder (createOrder reqOneA dbAB true []).db coA.id = some coA ∧
        coA.totalAmount = (coA.items.map (fun i => i.subtotal)).sum) :=
  ⟨⟨by decide, by decide⟩,
    c6_success_response_is_post_commit_read_back reqOneA dbAB true [] coA
      (by decide) (by decide)⟩

/-- Claim C7: cache invalidation is invoked only after the order
transaction has committed — in every reachable trace, `cacheInvalidate`
occurs exactly when `commit` does, immediately after it (the four listed
traces are the only possible ones) — and invalidation failures are
swallowed: the response, the committed database state and the trace are
identical whether the underlying Redis call succeeds (`cacheOk = true`)
or fails (`cacheOk = false`); a failed invalidation merely leaves the
cache contents unchanged and never changes the committed order's outcome. -/
theorem c7_invalidation_post_commit_and_best_effort
    (req : RawRequest) (db : Db) (cache : Cache) :
    ((createOrder req db true cache).response = (createOrder req db false cache).response ∧
      (createOrder req db true cache).db = (createOrder req db false cache).db ∧
      (createOrder req db true cache).trace = (createOrder req db false cache).trace ∧
      (createOrder req db false cache).cache = cache) ∧
    ∀ cacheOk : Bool,
      (createOrder req db cacheOk cache).trace = [.begin] ∨
        (createOrder req db cacheOk cache).trace = [.begin, .rollback] ∨
        (createOrder req db cacheOk cache).trace = [.begin, .commit, .cacheInvalidate] ∨
        (createOrder req db cacheOk cache).trace
          = [.begin, .commit, .cacheInvalidate, .rollback] := by
  constructor
  · unfold createOrder
    cases hv : validRequest req with
    | false => simp [hv]
    | true =>
      simp only [hv, Bool.not_true, Bool.false_eq_true, if_false]
      cases hu : req.userId with
      | none => exact ⟨rfl, rfl, rfl, rfl⟩
      | some uid =>
        dsimp only
        cases hr : reserveItems db (parseItems req) with
        | error e => exact ⟨rfl, rfl, rfl, rfl⟩
        | ok v =>
          obtain ⟨lines, total⟩ := v
          dsimp only
          cases hw : writeLines (insertOrder db uid total req.shippingAddress).2
              (insertOrder db uid total req.shippingAddress).1.id lines with
          | none => exact ⟨rfl, rfl, rfl, rfl⟩
          | some db2 =>
            dsimp only
            cases hb : readBackOrder db2 (insertOrder db uid total req.shippingAddress).1.id with
            | none => exact ⟨rfl, rfl, rfl, rfl⟩
            | some co => exact ⟨rfl, rfl, rfl, rfl⟩
  · intro cacheOk
    unfold createOrder
    cases hv : validRequest req with
    | false => simp [hv]
    | true =>
      simp only [hv, Bool.not_true, Bool.false_eq_true, if_false]
      cases hu : req.userId with
      | none => exact Or.inl rfl
      | some uid =>
        dsimp only
        cases hr : reserveItems db (parseItems req) with
        | error e => exact Or.inr (Or.inl rfl)
        | ok v =>
          obtain ⟨lines, total⟩ := v
          dsimp only
          cases hw : writeLines (insertOrder db uid total req.shippingAddress).2
              (insertOrder db uid total req.shippingAddress).1.id lines with
          | none => exact Or.inr (Or.inl rfl)
          | some db2 =>
            dsimp only
            cases hb : readBackOrder db2 (insertOrder db uid total req.shippingAddress).1.id with
            | none => exact Or.inr (Or.inr (Or.inr rfl))
            | some co => exact Or.inr (Or.inr (Or.inl rfl))

/-- A list is a prefix of itself extended by anything. -/
theorem isPrefixOf_append_self (l t : List Char) : l.isPrefixOf (l ++ t) = true := by
  induction l with
  | nil => simp [List.isPrefixOf]
  | cons a as ih => simp [List.isPrefixOf, ih]

/-- Every cache key the listing route writes falls under the
`products:*` namespace. -/
theorem listingKey_in_products_namespace (q : ListingParams) :
    matchesProductsPattern (listingKey q) = true := by
  unfold matchesProductsPattern strStartsWith
  have h : listingKey q = "products:" ++ (toString q.page ++ ":" ++ toString q.limit ++ ":"
      ++ catKeyPart q.category ++ ":" ++ searchKeyPart q.search) := by
    unfold listingKey
    simp [String.append_assoc]
  rw [h]
  simp only [String.toList, String.data_append]
  exact isPrefixOf_append_self _ _

/-- After the pattern delete, no key in the `products:` namespace is
present in the cache. -/
theorem cacheLookup_delByPattern (c : Cache) (k : String)
    (hk : matchesProductsPattern k = true) :
    cacheLookup (delByPatternProducts c) k = none := by
  unfold cacheLookup delByPatternProducts
  have hfind : (c.filter fun kv => !(matchesProductsPattern kv.1)).find?
      (fun kv => kv.1 == k) = none := by
    apply List.find?_eq_none.mpr
    intro kv hkv
    have hmem := List.mem_filter.mp hkv
    intro hbeq
    have hkeq : kv.1 = k := by simpa using hbeq
    rw [hkeq, hk] at hmem
    simp at hmem
  rw [hfind]
  rfl

/-- Claim C8: after a committed order, no subsequent product-listing
request is served from a cache entry written before the commit: every key
the listing route writes falls under the `products:*` namespace, the
post-commit invalidation deletes that whole namespace (`cacheOk = true`:
its Redis calls succeed — the failure policy is claim C7's subject), so a
subsequent listing with any parameters misses the cache and is served
from the committed database state, never from a pre-sale stock count. -/
theorem c8_listing_after_commit_not_served_from_stale_cache
    (req : RawRequest) (db : Db) (cache : Cache) (co : CompleteOrder) (q : ListingParams)
    (h : (createOrder req db true cache).response = .created co) :
    matchesProductsPattern (listingKey q) = true ∧
      cacheLookup (createOrder req db true cache).cache (listingKey q) = none ∧
      (serveListing (createOrder req db true cache).db
          (createOrder req db true cache).cache q).1
        = (.fromDb, listingFromDb (createOrder req db true cache).db q) := by
  obtain ⟨uid, lines, total, db2, hv, hu, hr, hw, hdb, hcache, hb⟩ :=
    createOrder_created_elim req db true cache co h
  have hkey := listingKey_in_products_namespace q
  have hnone : cacheLookup (createOrder req db true cache).cache (listingKey q) = none := by
    rw [hcache]
    simp only [if_true]
    exact cacheLookup_delByPattern cache (listingKey q) hkey
  refine ⟨hkey, hnone, ?_⟩
  unfold serveListing
  rw [hnone]

/-- Witness for C8: a concrete committed order against a cache holding a
stale listing page; the subsequent default listing is a cache miss served
from the database. -/
theorem c8_listing_after_commit_not_served_from_stale_cache_witness :
    (createOrder reqOneA dbAB true staleCache).response = .created coA ∧
      (matchesProductsPattern (listingKey qDefault) = true ∧
        cacheLookup (createOrder reqOneA dbAB true staleCache).cache (listingKey qDefault)
          = none ∧
        (serveListing (createOrder reqOneA dbAB true staleCache).db
            (createOrder reqOneA dbAB true staleCache).cache qDefault).1
          = (.fromDb, listingFromDb (createOrder reqOneA dbAB true staleCache).db qDefault)) :=
  ⟨by decide,
    c8_listing_after_commit_not_served_from_stale_cache reqOneA dbAB staleCache coA qDefault
      (by decide)⟩

/-- An `InsufficientStock` failure of the stock-check loop comes from a
cart line whose product exists with stock below the requested quantity,
and the message is the name/available/requested template for that line. -/
theorem reserveItems_insufficient_spec (db : Db) (items : List CartItem) (m : String)
    (h : reserveItems db items = .error (.insufficientStock m)) :
    ∃ it ∈ items, ∃ p, findProduct db it.productId = some p ∧
      p.stock < (it.quantity : Int) ∧
      m = insufficientStockMessage p.name p.stock it.quantity := by
  induction items with
  | nil => simp [reserveItems] at h
  | cons it rest ih =>
    simp only [reserveItems] at h
    cases hp : findProduct db it.productId with
    | none => simp [hp] at h
    | some p =>
      simp only [hp] at h
      by_cases hs : p.stock < (it.quantity : Int)
      · rw [if_pos hs] at h
        simp only [Except.error.injEq, OrderResponse.insufficientStock.injEq] at h
        exact ⟨it, List.mem_cons_self _ _, p, hp, hs, h.symm⟩
      · rw [if_neg hs] at h
        cases hr : reserveItems db rest with
        | error e =>
          rw [hr] at h
          simp only [Except.error.injEq] at h
          obtain ⟨x, hx, hrest⟩ := ih (h ▸ hr)
          exact ⟨x, List.mem_cons_of_mem _ hx, hrest⟩
        | ok v =>
          obtain ⟨ls, t⟩ := v
          simp [hr] at h

/-- Counterexample for claim C9: the product with id 7 named `Widget` has
stock 0; requesting one unit yields the insufficient-stock 400, whose
message surfaces the product NAME, available quantity and requested
quantity — but not the product id: the digit `7` appears nowhere in the
surfaced message. -/
theorem c9_counterexample :
    (createOrder (⟨[⟨7, 1⟩], "10 Main Street, Springfield", some 3⟩ : RawRequest)
        (⟨[⟨7, "Widget", "a widget", 5, 0, none⟩], [], [], 1, 1⟩ : Db) true []).response
      = .insufficientStock "Insufficient stock for Widget. Available: 0, Requested: 1" ∧
      containsSeg "7".toList
        "Insufficient stock for Widget. Available: 0, Requested: 1".toList = false ∧
      containsSeg "Widget".toList
        "Insufficient stock for Widget. Available: 0, Requested: 1".toList = true := by
  decide

/-- Claim C9 as amended: whenever a cart line's requested quantity
exceeds the available stock at check time, `createOrder` rolls the
transaction back (database and cache untouched) and returns a 400 whose
message surfaces the offending product's NAME (not its id), the available
quantity, and the requested quantity. -/
theorem c9_insufficient_stock_aborts_and_surfaces_name
    (req : RawRequest) (db : Db) (cacheOk : Bool) (cache : Cache) (m : String)
    (h : (createOrder req db cacheOk cache).response = .insufficientStock m) :
    ((createOrder req db cacheOk cache).db = db ∧
      (createOrder req db cacheOk cache).trace = [.begin, .rollback]) ∧
      ∃ it ∈ parseItems req, ∃ p, findProduct db it.productId = some p ∧
        p.stock < (it.quantity : Int) ∧
        m = insufficientStockMessage p.name p.stock it.quantity := by
  have hres : isReservationError (createOrder req db cacheOk cache).response = true := by
    rw [h]
    rfl
  obtain ⟨hdb, hcache, htrace, hr⟩ :=
    createOrder_reservation_error_anatomy req db cacheOk cache hres
  rw [h] at hr
  exact ⟨⟨hdb, htrace⟩, reserveItems_insufficient_spec db (parseItems req) m hr⟩

/-- Witness for the amended C9 at a concrete under-stocked cart. -/
theorem c9_insufficient_stock_aborts_and_surfaces_name_witness :
    (createOrder reqTwoGadgets dbGadget true []).response
        = .insufficientStock (insufficientStockMessage "Gadget" 1 2) ∧
      (((createOrder reqTwoGadgets dbGadget true []).db = dbGadget ∧
        (createOrder reqTwoGadgets dbGadget true []).trace = [.begin, .rollback]) ∧
        ∃ it ∈ parseItems reqTwoGadgets, ∃ p,
          findProduct dbGadget it.productId = some p ∧
          p.stock < (it.quantity : Int) ∧
          insufficientStockMessage "Gadget" 1 2
            = insufficientStockMessage p.name p.stock it.quantity) :=
  ⟨by decide,
    c9_insufficient_stock_aborts_and_surfaces_name reqTwoGadgets dbGadget true []
      (insufficientStockMessage "Gadget" 1 2) (by decide)⟩

/-- Claim C10: every `CacheService` operation catches its own Redis
errors and never propagates them: `get` returns null on any thrown cache
error (and never returns an error itself), `set`, `del` and
`delByPattern` complete without throwing whatever the underlying calls
do, and consequently a cache-layer outage degrades the listing route to a
database read instead of failing the request. -/
theorem c10_cache_service_swallows_redis_errors :
    (∀ (e : RedisError) (parse : String → Option ListingPage),
        cacheServiceGet (.error e) parse = .ok none) ∧
      (∀ (r : Except RedisError (Option String)) (parse : String → Option ListingPage),
        (cacheServiceGet r parse).isOk = true) ∧
      (∀ r : Except RedisError Unit, cacheServiceSet r = .ok ()) ∧
      (∀ r : Except RedisError Unit, cacheServiceDel r = .ok ()) ∧
      (∀ (rkeys : Except RedisError (List String))
          (rdel : List String → Except RedisError Unit),
        cacheServiceDelByPattern rkeys rdel = .ok ()) ∧
      (∀ (db : Db) (q : ListingParams) (e : RedisError)
          (parse : String → Option ListingPage),
        routeListing db q (.error e) parse = .ok (.fromDb, listingFromDb db q)) := by
  refine ⟨fun e parse => rfl, ?_, ?_, ?_, ?_, fun db q e parse => rfl⟩
  · intro r parse
    cases r with
    | error e => rfl
    | ok v => cases v <;> rfl
  · intro r
    cases r with
    | error e => rfl
    | ok v => rfl
  · intro r
    cases r with
    | error e => rfl
    | ok v => rfl
  · intro rkeys rdel
    unfold cacheServiceDelByPattern
    cases rkeys with
    | error e => rfl
    | ok keys =>
      by_cases hk : keys.isEmpty
      · simp [hk]
      · simp only [hk, Bool.false_eq_true, if_false]
        cases rdel keys with
        | error e => rfl
        | ok v => rfl

end ECommerce
